import Mathlib

/-!
Verification of the biquad second-order IIR filter library.

The per-sample arithmetic of the two realizations (`DirectForm1` and
`DirectForm2Transposed`) is embedded from `src/src/lib.rs` over the rationals,
so that the exact-arithmetic content of the claims is decidable and executable.
The `frequency` and `coefficients` modules are declared by the crate root but
their source files are not present in the repository snapshot; the definitions
that depend on them are modelled from the specification and marked as such in
their doc comments.
-/

namespace Biquad

/-- Possible errors, from `enum Errors` in `src/src/lib.rs`. -/
inductive Errors where
  | outsideNyquist
  | negativeQ
  | negativeFrequency
deriving DecidableEq, Repr

/-- The five normalized filter taps `b0, b1, b2, a1, a2` (the leading
denominator tap `a0` is divided out and not stored). The field set is the one
used by `DirectForm1::run` / `DirectForm2Transposed::run` in `src/src/lib.rs`. -/
structure Coefficients where
  a1 : ℚ
  a2 : ℚ
  b0 : ℚ
  b1 : ℚ
  b2 : ℚ
deriving DecidableEq, Repr

/-- Internal states and coefficients of the Direct Form 1 form
(`struct DirectForm1` in `src/src/lib.rs`). -/
structure DirectForm1 where
  y1 : ℚ
  y2 : ℚ
  x1 : ℚ
  x2 : ℚ
  coeffs : Coefficients
deriving DecidableEq, Repr

/-- Internal states and coefficients of the Direct Form 2 Transposed form
(`struct DirectForm2Transposed` in `src/src/lib.rs`). -/
structure DirectForm2Transposed where
  s1 : ℚ
  s2 : ℚ
  coeffs : Coefficients
deriving DecidableEq, Repr

/-- Embedding of `DirectForm1::new`: state zero-initialized, coefficients stored. -/
def DirectForm1.new (coefficients : Coefficients) : DirectForm1 :=
  { y1 := 0, y2 := 0, x1 := 0, x2 := 0, coeffs := coefficients }

/-- Embedding of `DirectForm2Transposed::new`: state zero-initialized,
coefficients stored. -/
def DirectForm2Transposed.new (coefficients : Coefficients) : DirectForm2Transposed :=
  { s1 := 0, s2 := 0, coeffs := coefficients }

/-- Embedding of `DirectForm1::run` from `src/src/lib.rs`: the Rust method
mutates `self` and returns `out`; here the updated state is returned alongside
the output. -/
def DirectForm1.run (s : DirectForm1) (input : ℚ) : ℚ × DirectForm1 :=
  let out := s.coeffs.b0 * input + s.coeffs.b1 * s.x1 + s.coeffs.b2 * s.x2
      - s.coeffs.a1 * s.y1
      - s.coeffs.a2 * s.y2
  (out, { s with x2 := s.x1, x1 := input, y2 := s.y1, y1 := out })

/-- Embedding of `DirectForm1::update_coefficients` from `src/src/lib.rs`. -/
def DirectForm1.update_coefficients (s : DirectForm1)
    (new_coefficients : Coefficients) : DirectForm1 :=
  { s with coeffs := new_coefficients }

/-- Embedding of `DirectForm2Transposed::run` from `src/src/lib.rs`: the Rust
method mutates `self` and returns `out`; here the updated state is returned
alongside the output. In the Rust code `self.s1` is overwritten before `self.s2`
is computed, but the new `self.s2` reads only `input` and `out`, so both new
registers are functions of the pre-call state exactly as written here. -/
def DirectForm2Transposed.run (s : DirectForm2Transposed) (input : ℚ) :
    ℚ × DirectForm2Transposed :=
  let out := s.s1 + s.coeffs.b0 * input
  (out, { s with s1 := s.s2 + s.coeffs.b1 * input - s.coeffs.a1 * out,
                 s2 := s.coeffs.b2 * input - s.coeffs.a2 * out })

/-- Embedding of `DirectForm2Transposed::update_coefficients` from
`src/src/lib.rs`. -/
def DirectForm2Transposed.update_coefficients (s : DirectForm2Transposed)
    (new_coefficients : Coefficients) : DirectForm2Transposed :=
  { s with coeffs := new_coefficients }

/-- Feeding a list of samples one at a time into a `DirectForm1`, collecting
the outputs, as the crate's doc example and tests do in a `for` loop. -/
def DirectForm1.runSeq : DirectForm1 → List ℚ → List ℚ
  | _, [] => []
  | s, input :: rest => (s.run input).1 :: (s.run input).2.runSeq rest

/-- Feeding a list of samples one at a time into a `DirectForm2Transposed`,
collecting the outputs. -/
def DirectForm2Transposed.runSeq : DirectForm2Transposed → List ℚ → List ℚ
  | _, [] => []
  | s, input :: rest => (s.run input).1 :: (s.run input).2.runSeq rest

/-- Modelled from the spec: the `frequency` module is declared by the crate
root (`pub mod frequency;`) but its source file is absent from the snapshot.
Per §3 of the spec, `Hertz` wraps a single real-valued magnitude in hertz. -/
structure Hertz where
  hz : ℚ
deriving DecidableEq, Repr

/-- Modelled from the spec: `Frequency::from_hz(value)` succeeds when
`value >= 0` with that magnitude, and fails with `NegativeFrequency` when
`value < 0` (§4.1, §6, §8 of the spec; `frequency.rs` is absent). -/
def Hertz.from_hz (value : ℚ) : Except Errors Hertz :=
  if value < 0 then .error .negativeFrequency else .ok ⟨value⟩

/-- Modelled from the spec: `Frequency::from_dt(period)` computes the rate as
the reciprocal of the period and applies the same validation to the derived
rate (§4.1 and §6 of the spec; `frequency.rs` is absent). -/
def Hertz.from_dt (dt : ℚ) : Except Errors Hertz :=
  let rate := 1 / dt
  if rate < 0 then .error .negativeFrequency else .ok ⟨rate⟩

/-- Modelled from the spec: the ergonomic literal-construction helper `hz()`
calls the fallible constructor and terminates the process (panics) on a
negative magnitude (§4.1 of the spec; `frequency.rs` is absent). The
process-fatal panic is modelled as `none`. -/
def hzLiteral (value : ℚ) : Option Hertz :=
  (Hertz.from_hz value).toOption

/-- Modelled from the spec: the closed filter-type tag (§3 of the spec;
`coefficients.rs` is absent). Shelf and peaking variants carry their dB gain,
since `from_params` takes no separate gain argument. -/
inductive FilterType where
  | lowPass
  | highPass
  | bandPass
  | notch
  | allPass
  | lowShelf (db_gain : ℚ)
  | highShelf (db_gain : ℚ)
  | peakingEQ (db_gain : ℚ)
deriving DecidableEq, Repr

/-- Single-precision transcendental primitives used by the coefficient
formulas, taken as parameters of the model: the spec (§4.2) states the
formulas in terms of `sinF`, `cosF`, `10^x` (`pow10F`), square root (`sqrtF`) and
π (`piF`), and floating-point trigonometry is outside the embedding. -/
structure FloatOps where
  sinF : ℚ → ℚ
  cosF : ℚ → ℚ
  pow10F : ℚ → ℚ
  sqrtF : ℚ → ℚ
  piF : ℚ

/-- Modelled from the spec: `Coefficients::from_params` (§4.2 and §6 of the
spec; `coefficients.rs` is absent). Validation in order: `f0 >= fs/2` fails
with `OutsideNyquist`; then `q <= 0` fails with `NegativeQ`; otherwise the
Audio EQ Cookbook closed forms, normalized by the leading denominator term,
are computed (the spec does not pick between the two cookbook band-pass
variants; the constant-peak-gain one is used, which the claims do not
depend on). -/
def Coefficients.from_params (ops : FloatOps) (ty : FilterType)
    (fs f0 : Hertz) (q : ℚ) : Except Errors Coefficients :=
  if fs.hz / 2 ≤ f0.hz then .error .outsideNyquist
  else if q ≤ 0 then .error .negativeQ
  else
    let w0 := 2 * ops.piF * f0.hz / fs.hz
    let sinw := ops.sinF w0
    let cosw := ops.cosF w0
    let alpha := sinw / (2 * q)
    match ty with
    | .lowPass =>
        let a0 := 1 + alpha
        .ok { a1 := -2 * cosw / a0, a2 := (1 - alpha) / a0,
              b0 := ((1 - cosw) / 2) / a0, b1 := (1 - cosw) / a0,
              b2 := ((1 - cosw) / 2) / a0 }
    | .highPass =>
        let a0 := 1 + alpha
        .ok { a1 := -2 * cosw / a0, a2 := (1 - alpha) / a0,
              b0 := ((1 + cosw) / 2) / a0, b1 := -(1 + cosw) / a0,
              b2 := ((1 + cosw) / 2) / a0 }
    | .bandPass =>
        let a0 := 1 + alpha
        .ok { a1 := -2 * cosw / a0, a2 := (1 - alpha) / a0,
              b0 := alpha / a0, b1 := 0, b2 := -alpha / a0 }
    | .notch =>
        let a0 := 1 + alpha
        .ok { a1 := -2 * cosw / a0, a2 := (1 - alpha) / a0,
              b0 := 1 / a0, b1 := -2 * cosw / a0, b2 := 1 / a0 }
    | .allPass =>
        let a0 := 1 + alpha
        .ok { a1 := -2 * cosw / a0, a2 := (1 - alpha) / a0,
              b0 := (1 - alpha) / a0, b1 := -2 * cosw / a0,
              b2 := (1 + alpha) / a0 }
    | .lowShelf db_gain =>
        let A := ops.pow10F (db_gain / 40)
        let rootA := ops.sqrtF A
        let a0 := (A + 1) + (A - 1) * cosw + 2 * rootA * alpha
        .ok { a1 := -2 * ((A - 1) + (A + 1) * cosw) / a0,
              a2 := ((A + 1) + (A - 1) * cosw - 2 * rootA * alpha) / a0,
              b0 := A * ((A + 1) - (A - 1) * cosw + 2 * rootA * alpha) / a0,
              b1 := 2 * A * ((A - 1) - (A + 1) * cosw) / a0,
              b2 := A * ((A + 1) - (A - 1) * cosw - 2 * rootA * alpha) / a0 }
    | .highShelf db_gain =>
        let A := ops.pow10F (db_gain / 40)
        let rootA := ops.sqrtF A
        let a0 := (A + 1) - (A - 1) * cosw + 2 * rootA * alpha
        .ok { a1 := 2 * ((A - 1) - (A + 1) * cosw) / a0,
              a2 := ((A + 1) - (A - 1) * cosw - 2 * rootA * alpha) / a0,
              b0 := A * ((A + 1) + (A - 1) * cosw + 2 * rootA * alpha) / a0,
              b1 := -2 * A * ((A - 1) + (A + 1) * cosw) / a0,
              b2 := A * ((A + 1) + (A - 1) * cosw - 2 * rootA * alpha) / a0 }
    | .peakingEQ db_gain =>
        let A := ops.pow10F (db_gain / 40)
        let a0 := 1 + alpha / A
        .ok { a1 := -2 * cosw / a0, a2 := (1 - alpha / A) / a0,
              b0 := (1 + alpha * A) / a0, b1 := -2 * cosw / a0,
              b2 := (1 - alpha * A) / a0 }

/-! ### Helper lemmas (shared by several claims) -/

/-- Running a zero-state `DirectForm1` on a zero sample yields zero output and
leaves the zero state in place. -/
theorem df1_run_zero (c : Coefficients) :
    (DirectForm1.new c).run 0 = (0, DirectForm1.new c) := by
  simp [DirectForm1.run, DirectForm1.new]

/-- Running a zero-state `DirectForm2Transposed` on a zero sample yields zero
output and leaves the zero state in place. -/
theorem df2t_run_zero (c : Coefficients) :
    (DirectForm2Transposed.new c).run 0 = (0, DirectForm2Transposed.new c) := by
  simp [DirectForm2Transposed.run, DirectForm2Transposed.new]

/-- The simulation invariant between the two realizations: a Direct Form 2
Transposed state simulates a Direct Form 1 state when it holds the same
coefficients and its registers hold the part of the next output that depends
on the delay-line memory (`s1`) and the part of the register after that (`s2`). -/
def simulates (d2 : DirectForm2Transposed) (d1 : DirectForm1) : Prop :=
  d2.coeffs = d1.coeffs ∧
  d2.s1 = d1.coeffs.b1 * d1.x1 + d1.coeffs.b2 * d1.x2
      - d1.coeffs.a1 * d1.y1 - d1.coeffs.a2 * d1.y2 ∧
  d2.s2 = d1.coeffs.b2 * d1.x1 - d1.coeffs.a2 * d1.y1

/-- One step preserves the simulation invariant and gives equal outputs. -/
theorem simulates_step (d2 : DirectForm2Transposed) (d1 : DirectForm1)
    (h : simulates d2 d1) (input : ℚ) :
    (d2.run input).1 = (d1.run input).1 ∧
    simulates (d2.run input).2 (d1.run input).2 := by
  obtain ⟨hc, h1, h2⟩ := h
  have hout : (d2.run input).1 = (d1.run input).1 := by
    simp only [DirectForm2Transposed.run, DirectForm1.run, hc, h1]
    ring
  refine ⟨hout, ?_, ?_, ?_⟩
  · simp [DirectForm2Transposed.run, DirectForm1.run, hc]
  · simp only [DirectForm2Transposed.run, DirectForm1.run]
    rw [hc, h2, h1]
    ring
  · simp only [DirectForm2Transposed.run, DirectForm1.run]
    rw [hc, h1]
    ring

/-- Whole-sequence consequence of the simulation invariant. -/
theorem simulates_runSeq (inputs : List ℚ) :
    ∀ (d2 : DirectForm2Transposed) (d1 : DirectForm1), simulates d2 d1 →
      d1.runSeq inputs = d2.runSeq inputs := by
  induction inputs with
  | nil => intro d2 d1 _; rfl
  | cons i rest ih =>
      intro d2 d1 h
      obtain ⟨hout, hsim⟩ := simulates_step d2 d1 h i
      simp only [DirectForm1.runSeq, DirectForm2Transposed.runSeq]
      rw [hout, ih _ _ hsim]

/-! ### Claim theorems -/

/-- C1: for every input sample and every held coefficient set and state,
`DirectForm1::run(input)` returns
`output = b0*input + b1*x1 + b2*x2 - a1*y1 - a2*y2`, computed from the
pre-call state, and afterwards the state is shifted as `x2 <- old x1`,
`x1 <- input`, `y2 <- old y1`, `y1 <- output`. -/
theorem directForm1_run_correct (s : DirectForm1) (input : ℚ) :
    (s.run input).1
      = s.coeffs.b0 * input + s.coeffs.b1 * s.x1 + s.coeffs.b2 * s.x2
        - s.coeffs.a1 * s.y1 - s.coeffs.a2 * s.y2 ∧
    (s.run input).2.x2 = s.x1 ∧
    (s.run input).2.x1 = input ∧
    (s.run input).2.y2 = s.y1 ∧
    (s.run input).2.y1 = (s.run input).1 :=
  ⟨rfl, rfl, rfl, rfl, rfl⟩

/-- C2: for every input sample and every held coefficient set and state,
`DirectForm2Transposed::run(input)` returns `output = s1 + b0*input` using the
pre-call `s1`, and afterwards `s1 = old s2 + b1*input - a1*output` and
`s2 = b2*input - a2*output`. -/
theorem directForm2Transposed_run_correct (s : DirectForm2Transposed)
    (input : ℚ) :
    (s.run input).1 = s.s1 + s.coeffs.b0 * input ∧
    (s.run input).2.s1
      = s.s2 + s.coeffs.b1 * input - s.coeffs.a1 * (s.run input).1 ∧
    (s.run input).2.s2
      = s.coeffs.b2 * input - s.coeffs.a2 * (s.run input).1 :=
  ⟨rfl, rfl, rfl⟩

/-- C3: for every coefficient set and every finite input sequence, a freshly
constructed `DirectForm1` and a freshly constructed `DirectForm2Transposed`
holding identical coefficients and fed the identical input sequence produce
output sequences that are equal at every sample index (exact arithmetic). -/
theorem directForms_equivalent (c : Coefficients) (inputs : List ℚ) :
    (DirectForm1.new c).runSeq inputs
      = (DirectForm2Transposed.new c).runSeq inputs := by
  refine simulates_runSeq inputs _ _ ?_
  refine ⟨rfl, ?_, ?_⟩ <;> simp [DirectForm1.new, DirectForm2Transposed.new]

/-- Driving a fresh `DirectForm1` with zeros produces zeros. -/
theorem df1_runSeq_zeros (c : Coefficients) :
    ∀ n : ℕ, (DirectForm1.new c).runSeq (List.replicate n 0) = List.replicate n 0
  | 0 => rfl
  | n + 1 => by
      simp only [List.replicate_succ, DirectForm1.runSeq, df1_run_zero]
      exact congrArg _ (df1_runSeq_zeros c n)

/-- Driving a fresh `DirectForm2Transposed` with zeros produces zeros. -/
theorem df2t_runSeq_zeros (c : Coefficients) :
    ∀ n : ℕ,
      (DirectForm2Transposed.new c).runSeq (List.replicate n 0)
        = List.replicate n 0
  | 0 => rfl
  | n + 1 => by
      simp only [List.replicate_succ, DirectForm2Transposed.runSeq,
        df2t_run_zero]
      exact congrArg _ (df2t_runSeq_zeros c n)

/-- C6: for every coefficient set (every rational coefficient is finite) and
every length `n`, driving either realization from its zero-initialized
constructed state with `n` zero input samples produces `n` zero outputs. -/
theorem zero_input_zero_output (c : Coefficients) (n : ℕ) :
    (DirectForm1.new c).runSeq (List.replicate n 0) = List.replicate n 0 ∧
    (DirectForm2Transposed.new c).runSeq (List.replicate n 0)
      = List.replicate n 0 :=
  ⟨df1_runSeq_zeros c n, df2t_runSeq_zeros c n⟩

/-- C7: for every coefficient set `c`, `DirectForm1::new(c)` and
`DirectForm2Transposed::new(c)` produce instances whose every delay-line state
field is zero and whose held coefficient set equals `c`. -/
theorem new_zero_state_holds_coeffs (c : Coefficients) :
    (DirectForm1.new c).x1 = 0 ∧ (DirectForm1.new c).x2 = 0 ∧
    (DirectForm1.new c).y1 = 0 ∧ (DirectForm1.new c).y2 = 0 ∧
    (DirectForm1.new c).coeffs = c ∧
    (DirectForm2Transposed.new c).s1 = 0 ∧
    (DirectForm2Transposed.new c).s2 = 0 ∧
    (DirectForm2Transposed.new c).coeffs = c :=
  ⟨rfl, rfl, rfl, rfl, rfl, rfl, rfl, rfl⟩

/-- C5: for both realizations, every state and every new coefficient set,
`update_coefficients(new)` replaces only the held coefficient set and leaves
every delay-line state field exactly unchanged. -/
theorem update_coefficients_preserves_state (d1 : DirectForm1)
    (d2 : DirectForm2Transposed) (c : Coefficients) :
    (d1.update_coefficients c).x1 = d1.x1 ∧
    (d1.update_coefficients c).x2 = d1.x2 ∧
    (d1.update_coefficients c).y1 = d1.y1 ∧
    (d1.update_coefficients c).y2 = d1.y2 ∧
    (d1.update_coefficients c).coeffs = c ∧
    (d2.update_coefficients c).s1 = d2.s1 ∧
    (d2.update_coefficients c).s2 = d2.s2 ∧
    (d2.update_coefficients c).coeffs = c :=
  ⟨rfl, rfl, rfl, rfl, rfl, rfl, rfl, rfl⟩

/-- C10: for both realizations, `run` leaves the held coefficient set
unchanged, for every input and every pre-call state. -/
theorem run_preserves_coefficients (d1 : DirectForm1)
    (d2 : DirectForm2Transposed) (input : ℚ) :
    (d1.run input).2.coeffs = d1.coeffs ∧
    (d2.run input).2.coeffs = d2.coeffs :=
  ⟨rfl, rfl⟩

/-- C8: for every `v >= 0`, `Frequency::from_hz(v)` succeeds with magnitude
`v` (and the literal helper returns it); for every `v < 0` it fails with
`NegativeFrequency` while the literal helper terminates the process
(modelled as `none`). -/
theorem from_hz_correct (v : ℚ) :
    (0 ≤ v → Hertz.from_hz v = .ok ⟨v⟩ ∧ hzLiteral v = some ⟨v⟩) ∧
    (v < 0 →
      Hertz.from_hz v = .error .negativeFrequency ∧ hzLiteral v = none) := by
  constructor
  · intro h
    simp [Hertz.from_hz, hzLiteral, not_lt.mpr h, Except.toOption]
  · intro h
    simp [Hertz.from_hz, hzLiteral, h, Except.toOption]

/-- C8 witness: the two branches at `v = 5` and `v = -3`. -/
theorem from_hz_correct_witness :
    (Hertz.from_hz 5 = .ok ⟨5⟩ ∧ hzLiteral 5 = some ⟨5⟩) ∧
    (Hertz.from_hz (-3) = .error .negativeFrequency ∧ hzLiteral (-3) = none) :=
  ⟨(from_hz_correct 5).1 (by norm_num), (from_hz_correct (-3)).2 (by norm_num)⟩

/-- C9: constructing from a period of 1 second yields the same `Frequency`
value as constructing from a rate of 1 Hz. -/
theorem from_dt_one_eq_from_hz_one : Hertz.from_dt 1 = Hertz.from_hz 1 := by
  norm_num [Hertz.from_dt, Hertz.from_hz]

/-- C4: `Coefficients::from_params` validates in order — `f0 >= fs/2` fails
with `OutsideNyquist`; otherwise `q <= 0` fails with `NegativeQ`; otherwise it
succeeds: for every filter type the computation step after validation cannot
fail. -/
theorem from_params_validation (ops : FloatOps) (ty : FilterType)
    (fs f0 : Hertz) (q : ℚ) :
    (fs.hz / 2 ≤ f0.hz →
      Coefficients.from_params ops ty fs f0 q = .error .outsideNyquist) ∧
    (f0.hz < fs.hz / 2 → q ≤ 0 →
      Coefficients.from_params ops ty fs f0 q = .error .negativeQ) ∧
    (f0.hz < fs.hz / 2 → 0 < q →
      ∃ c, Coefficients.from_params ops ty fs f0 q = .ok c) := by
  refine ⟨?_, ?_, ?_⟩
  · intro h
    unfold Coefficients.from_params
    rw [if_pos h]
  · intro h hq
    unfold Coefficients.from_params
    rw [if_neg (not_le.mpr h), if_pos hq]
  · intro h hq
    unfold Coefficients.from_params
    rw [if_neg (not_le.mpr h), if_neg (not_le.mpr hq)]
    cases ty <;> exact ⟨_, rfl⟩

/-- C4 witness: the three branches at concrete inputs, with identity
stand-ins for the transcendental primitives. -/
theorem from_params_validation_witness :
    Coefficients.from_params ⟨id, id, id, id, 3⟩ .lowPass ⟨10⟩ ⟨1000⟩ (7/10)
      = .error .outsideNyquist ∧
    Coefficients.from_params ⟨id, id, id, id, 3⟩ .lowPass ⟨1000⟩ ⟨10⟩ (-1)
      = .error .negativeQ ∧
    ∃ c, Coefficients.from_params ⟨id, id, id, id, 3⟩ .lowPass ⟨1000⟩ ⟨10⟩ (7/10)
      = .ok c :=
  ⟨(from_params_validation ⟨id, id, id, id, 3⟩ .lowPass ⟨10⟩ ⟨1000⟩ (7/10)).1
      (by norm_num),
   (from_params_validation ⟨id, id, id, id, 3⟩ .lowPass ⟨1000⟩ ⟨10⟩ (-1)).2.1
      (by norm_num) (by norm_num),
   (from_params_validation ⟨id, id, id, id, 3⟩ .lowPass ⟨1000⟩ ⟨10⟩ (7/10)).2.2
      (by norm_num) (by norm_num)⟩

end Biquad
